import Mathlib

/-!
Verification of the PMO Pulse performance forecasting and anomaly detection
engine (Streamlit dashboard, `src/app.py` and `src/utils/`).

Conventions of the embedding:
* Machine floats are modelled as rationals (`ℚ`); the algorithms under test
  only add, subtract, multiply, divide and compare.
* Calendar datetimes are modelled as rational day counts measured from a
  fixed epoch; `timedelta` arithmetic becomes rational arithmetic.
  Python `(a - b).days` truncation is made explicit (`Int.floor`) where the
  operands can be fractional.
* A pandas cell that is absent or NaN is an `Option ℚ` that is `none`;
  comparisons against `none` are false, like every NaN comparison.
* `datetime.now()` and the configuration thresholds live in `st.session_state`
  or the ambient clock; they are passed as explicit parameters.
-/

namespace PMO

/-! ## Small-sample anomaly fallback (src/app.py, detect_project_anomalies)

The branch taken when `len(metrics) < 10`: per metric column compute
`mean`/`std` (pandas sample std, `ddof = 1`) and flag the rows lying strictly
beyond three standard deviations from the mean.  A column of the metric
matrix is a `List ℚ`; the matrix is the list of its columns, all of the same
length `n` (the row count). -/

/-- `Series.mean()` of a fully filled column: sum over length
(0 for the empty column, where pandas gives NaN and nothing is compared). -/
def colMean (xs : List ℚ) : ℚ := xs.sum / xs.length

/-- `Series.std()` squared: the sample variance with `ddof = 1`.
For a one-element column pandas yields NaN, every comparison against which is
false; here the rational division by zero yields 0 and the flag condition
below is likewise never satisfied, so the two agree. -/
def colVar (xs : List ℚ) : ℚ :=
  ((xs.map (fun x => (x - colMean xs) ^ 2)).sum) / ((xs.length : ℚ) - 1)

/-- The outlier test `(metrics[col] > mean + 3*std) | (metrics[col] < mean - 3*std)`
of the fallback, stated in squared form: `|x - mean| > 3*std` iff
`(x - mean)^2 > 9*var`, since `std = sqrt var ≥ 0`. -/
def isOutlier (xs : List ℚ) (x : ℚ) : Bool :=
  decide ((x - colMean xs) ^ 2 > 9 * colVar xs)

/-- Whether column `c` flags the row at position `j`. -/
def flagAt (j : ℕ) (c : List ℚ) : Bool := isOutlier c (c.getD j 0)

/-- One iteration of the fallback loop `for col in metrics.columns`:
`anomalies.loc[outliers, 'is_anomaly'] = True` and
`anomalies.loc[outliers, 'anomaly_score'] += 1`, applied to the per-row
accumulator `acc` of `(is_anomaly, anomaly_score)` pairs. -/
def stepColumn (acc : List (Bool × ℕ)) (c : List ℚ) : List (Bool × ℕ) :=
  List.zipWith
    (fun (a : Bool × ℕ) (x : ℚ) =>
      (a.1 || isOutlier c x, if isOutlier c x then a.2 + 1 else a.2))
    acc c

/-- The `len(metrics) < 10` statistical-fallback branch of
`detect_project_anomalies` (src/app.py lines 2190-2207): every row starts as
`(False, 0)` and the column update is folded over all metric columns. -/
def detectFallback (cols : List (List ℚ)) (n : ℕ) : List (Bool × ℕ) :=
  cols.foldl stepColumn (List.replicate n (false, 0))

/-! Characterisation of the fold: row `j` ends up with flag
`cols.any (flagAt j)` and score `cols.countP (flagAt j)`. -/

lemma zipWith_map_range (g : (Bool × ℕ) → ℚ → (Bool × ℕ)) :
    ∀ (n : ℕ) (f : ℕ → Bool × ℕ) (c : List ℚ), c.length = n →
      List.zipWith g ((List.range n).map f) c =
        (List.range n).map (fun j => g (f j) (c.getD j 0)) := by
  intro n
  induction n with
  | zero => intro f c hc; simp
  | succ m ih =>
      intro f c hc
      cases c with
      | nil => simp at hc
      | cons x xs =>
          simp only [List.range_succ_eq_map, List.map_cons, List.map_map,
            List.zipWith_cons_cons, List.getD_cons_zero]
          have hxs : xs.length = m := by simpa using hc
          have hih := ih (fun j => f (j + 1)) xs hxs
          refine congrArg (List.cons _) ?_
          calc List.zipWith g (List.map (f ∘ Nat.succ) (List.range m)) xs
              = List.zipWith g (List.map (fun j => f (j + 1)) (List.range m)) xs := rfl
            _ = List.map (fun j => g (f (j + 1)) (xs.getD j 0)) (List.range m) := hih
            _ = List.map ((fun j => g (f j) ((x :: xs).getD j 0)) ∘ Nat.succ)
                  (List.range m) := by
                apply List.map_congr_left
                intro j _
                simp [Function.comp]

lemma stepColumn_map_range (n : ℕ) (f : ℕ → Bool × ℕ) (c : List ℚ)
    (hc : c.length = n) :
    stepColumn ((List.range n).map f) c =
      (List.range n).map (fun j =>
        ((f j).1 || flagAt j c,
          if flagAt j c then (f j).2 + 1 else (f j).2)) := by
  unfold stepColumn flagAt
  exact zipWith_map_range _ n f c hc

lemma foldl_stepColumn_map_range :
    ∀ (cols : List (List ℚ)) (n : ℕ) (f : ℕ → Bool × ℕ),
      (∀ c ∈ cols, c.length = n) →
      cols.foldl stepColumn ((List.range n).map f) =
        (List.range n).map (fun j =>
          ((f j).1 || cols.any (flagAt j),
            (f j).2 + cols.countP (flagAt j))) := by
  intro cols
  induction cols with
  | nil => intro n f _; simp
  | cons c cs ih =>
      intro n f hlen
      have hc : c.length = n := hlen c (by simp)
      have hcs : ∀ d ∈ cs, d.length = n := fun d hd => hlen d (by simp [hd])
      simp only [List.foldl_cons]
      rw [stepColumn_map_range n f c hc, ih n _ hcs]
      apply List.map_congr_left
      intro j _
      simp only [Prod.mk.injEq]
      refine ⟨by simp [Bool.or_assoc], ?_⟩
      simp only [List.countP_cons]
      by_cases h : flagAt j c
      · simp [h]; omega
      · simp [h]

/-- Closed form of the fallback: row `j` is flagged iff some column flags it,
and its score is the number of columns flagging it. -/
lemma detectFallback_eq (cols : List (List ℚ)) (n : ℕ)
    (h : ∀ c ∈ cols, c.length = n) :
    detectFallback cols n =
      (List.range n).map (fun j =>
        (cols.any (flagAt j), cols.countP (flagAt j))) := by
  unfold detectFallback
  have hrep : List.replicate n ((false : Bool), (0 : ℕ)) =
      (List.range n).map (fun _ => (false, 0)) := by
    rw [List.map_const']; simp
  rw [hrep, foldl_stepColumn_map_range cols n _ h]
  simp

/-! ## No value of a column with fewer than ten entries can lie strictly
beyond three sample standard deviations of the column

This is Samuelson's inequality: every member of an `n`-element sample lies
within `(n-1)/√n` sample standard deviations of the sample mean, and
`(n-1)/√n ≤ 3` exactly when `n ≤ 10`.  The fallback branch only ever runs
with `n < 10`, so its flag condition is unsatisfiable. -/

lemma sum_sq_nonneg (l : List ℚ) : 0 ≤ (l.map (fun x => x ^ 2)).sum := by
  induction l with
  | nil => simp
  | cons a t ih => simp only [List.map_cons, List.sum_cons]; positivity

/-- Discrete Cauchy-Schwarz for lists: `(Σ l)^2 ≤ |l| * Σ l²`. -/
lemma sq_sum_le_length_mul_sum_sq (l : List ℚ) :
    l.sum ^ 2 ≤ (l.length : ℚ) * (l.map (fun x => x ^ 2)).sum := by
  induction l with
  | nil => simp
  | cons a t ih =>
      simp only [List.sum_cons, List.map_cons, List.length_cons]
      push_cast
      have hQ : 0 ≤ (t.map (fun x => x ^ 2)).sum := sum_sq_nonneg t
      rcases eq_or_ne t [] with rfl | hne
      · simp
      · have h0 : 0 < t.length := List.length_pos.mpr hne
        have hm1 : (1 : ℚ) ≤ (t.length : ℚ) := by exact_mod_cast h0
        nlinarith [sq_nonneg ((t.length : ℚ) * a - t.sum), ih, hQ, hm1,
          mul_nonneg (sub_nonneg.mpr hm1) (sub_nonneg.mpr ih)]

/-- `Σ (y - c)^2` over a list, expanded. -/
lemma sum_sub_sq (xs : List ℚ) (c : ℚ) :
    (xs.map (fun y => (y - c) ^ 2)).sum =
      (xs.map (fun y => y ^ 2)).sum - 2 * c * xs.sum + (xs.length : ℚ) * c ^ 2 := by
  induction xs with
  | nil => simp
  | cons a t ih =>
      simp only [List.map_cons, List.sum_cons, List.length_cons]
      rw [ih]
      push_cast
      ring

/-- Samuelson's inequality in polynomial form: for `x` a member of `xs` with
`n = |xs|`, `(n*x - Σ xs)^2 ≤ (n-1) * (n * Σ xs² - (Σ xs)^2)`. -/
lemma samuelson (xs : List ℚ) (x : ℚ) (hx : x ∈ xs) :
    ((xs.length : ℚ) * x - xs.sum) ^ 2 ≤
      ((xs.length : ℚ) - 1) *
        ((xs.length : ℚ) * (xs.map (fun y => y ^ 2)).sum - xs.sum ^ 2) := by
  obtain ⟨l1, l2, rfl⟩ := List.append_of_mem hx
  have hsum : (l1 ++ x :: l2).sum = x + (l1 ++ l2).sum := by
    simp [List.sum_append]; ring
  have hsq : ((l1 ++ x :: l2).map (fun y => y ^ 2)).sum =
      x ^ 2 + ((l1 ++ l2).map (fun y => y ^ 2)).sum := by
    simp [List.sum_append]; ring
  have hlen : ((l1 ++ x :: l2).length : ℚ) = ((l1 ++ l2).length : ℚ) + 1 := by
    simp [List.length_append]
    ring
  have hcs := sq_sum_le_length_mul_sum_sq (l1 ++ l2)
  rw [hsum, hsq, hlen]
  set m : ℚ := ((l1 ++ l2).length : ℚ) with hm
  set T1 : ℚ := (l1 ++ l2).sum
  set T2 : ℚ := ((l1 ++ l2).map (fun y => y ^ 2)).sum
  have hm0 : 0 ≤ m := by rw [hm]; positivity
  nlinarith [hcs, hm0, mul_nonneg hm0 (sub_nonneg.mpr hcs)]

/-- The fallback flag condition is unsatisfiable on columns of at most ten
entries: no member of such a column exceeds three sample standard deviations
from the column mean. -/
lemma isOutlier_eq_false_of_short (xs : List ℚ) (hlen : xs.length ≤ 10)
    (x : ℚ) (hx : x ∈ xs) : isOutlier xs x = false := by
  have hn : 0 < xs.length := List.length_pos.mpr (List.ne_nil_of_mem hx)
  unfold isOutlier
  rw [decide_eq_false_iff_not]
  push_neg
  rcases Nat.lt_or_ge xs.length 2 with h2 | h2
  · -- a single-element column: the mean is the element and the variance is 0
    have h1 : xs.length = 1 := by omega
    obtain ⟨a, rfl⟩ := List.length_eq_one.mp h1
    have hxa : x = a := by simpa using hx
    subst hxa
    simp [colVar, colMean]
  · -- `n ≥ 2`: clear denominators and apply Samuelson plus `(n-1)^2 ≤ 9n`
    have hnpos : (0 : ℚ) < (xs.length : ℚ) := by exact_mod_cast hn
    have h2' : (2 : ℚ) ≤ (xs.length : ℚ) := by exact_mod_cast h2
    have hn10 : (xs.length : ℚ) ≤ 10 := by exact_mod_cast hlen
    have hn0 : (xs.length : ℚ) ≠ 0 := ne_of_gt hnpos
    have hn1ne : (xs.length : ℚ) - 1 ≠ 0 :=
      sub_ne_zero.mpr (ne_of_gt (by linarith))
    have hcauchy := sq_sum_le_length_mul_sum_sq xs
    have hsam := samuelson xs x hx
    have hQ : 0 ≤ (xs.length : ℚ) * (xs.map (fun y => y ^ 2)).sum - xs.sum ^ 2 := by
      linarith
    have hfac : ((xs.length : ℚ) - 1) ^ 2 ≤ 9 * (xs.length : ℚ) := by nlinarith
    have hvar : colVar xs =
        ((xs.length : ℚ) * (xs.map (fun y => y ^ 2)).sum - xs.sum ^ 2) /
          ((xs.length : ℚ) * ((xs.length : ℚ) - 1)) := by
      unfold colVar colMean
      rw [sum_sub_sq]
      field_simp
      ring
    have hmean : x - colMean xs = ((xs.length : ℚ) * x - xs.sum) / (xs.length : ℚ) := by
      unfold colMean
      field_simp
      ring
    rw [hvar, hmean, div_pow, ← mul_div_assoc,
      div_le_div_iff₀ (by positivity) (mul_pos hnpos (by linarith))]
    nlinarith [mul_le_mul_of_nonneg_right hsam
        (mul_nonneg hnpos.le (by linarith : (0 : ℚ) ≤ (xs.length : ℚ) - 1)),
      mul_le_mul_of_nonneg_right hfac (mul_nonneg hQ hnpos.le)]

/-! ## EVM forecaster of src/app.py (`forecast_project_completion`, lines 1971-2079)

A project row (`pandas.Series`) carries nullable cells: `none` stands for an
absent key or a NaN value, so that the guards
`'f' in project and not pd.isnull(project['f'])` become `p.f = some v`.
Dates are rational day counts; `datetime.now()` is the parameter `now`.
The narrative `risk_factors`/insight strings are not modelled: no claim
mentions them and they do not feed back into any numeric field. -/

namespace App

structure FcProject where
  project_id : ℕ
  planned_start : Option ℚ
  planned_end : Option ℚ
  spi : Option ℚ
  cpi : Option ℚ
  budget : Option ℚ
  actual_cost : Option ℚ
  completion_pct : Option ℚ
deriving Repr, DecidableEq

structure FcResult where
  forecast_completion_date : Option ℚ
  completion_confidence : ℤ
  forecast_final_cost : Option ℚ
  schedule_variance_days : ℤ
  cost_variance : ℚ
deriving Repr, DecidableEq

/-- The initial results dictionary of `forecast_project_completion`. -/
def initFcResult : FcResult :=
  { forecast_completion_date := none
    completion_confidence := 0
    forecast_final_cost := none
    schedule_variance_days := 0
    cost_variance := 0 }

/-- The schedule branch of `forecast_project_completion` (lines 1972-2008):
runs when planned dates and a positive SPI are present.  `int(70 * spi)`
truncates toward zero, which on the positive branch values equals
`Int.floor`; `(forecast_completion_date - planned_end).days` floors the
possibly fractional day difference, hence `Int.floor` there too. -/
def scheduleStage (now : ℚ) (p : FcProject) : FcResult :=
  match p.planned_end, p.planned_start, p.spi with
  | some pe, some ps, some s =>
      if s > 0 then
        let planned_duration := pe - ps
        let elapsed_days := if now < ps then 0 else now - ps
        let remaining_duration := max 0 ((planned_duration - elapsed_days) / s)
        let fcd := ps + (elapsed_days + remaining_duration)
        { initFcResult with
          forecast_completion_date := some fcd
          schedule_variance_days := ⌊fcd - pe⌋
          completion_confidence := if s ≤ 1 then ⌊70 * s⌋ else 70 }
      else initFcResult
  | _, _, _ => initFcResult

/-- `forecast_project_completion(project, ...)` of src/app.py: the schedule
branch followed by the cost branch, which runs when budget and a positive CPI
are present.  The tasks and history arguments of the Python function are
ignored by its body and are omitted. -/
def forecast_project_completion (now : ℚ) (p : FcProject) : FcResult :=
  let r1 : FcResult := scheduleStage now p
  match p.budget, p.cpi with
  | some b, some c =>
      if c > 0 then
        let a : ℚ :=
          match p.actual_cost with
          | some a => a
          | none =>
              match p.completion_pct with
              | some pct => b * (min 100 (max 0 pct) / 100) / c
              | none => b * (1 / 2) / c
        let eac := a + (b - a) / c
        { r1 with forecast_final_cost := some eac, cost_variance := eac - b }
      else r1
  | _, _ => r1

end App

/-! ## EVM forecaster of src/utils/advanced_analytics.py
(`forecast_project_completion`, lines 118-195)

This variant aggregates SPI/CPI from the project's task rows.  The task
table columns `planned_cost`, `earned_value`, `actual_cost` are modelled as
always present (the `in tasks_data.columns` guards hold).  Planned dates and
budget are accessed unguardedly by the source, so they are plain rationals
here, matching the §6 ingestion contract. -/

namespace Advanced

structure Task where
  planned_cost : ℚ
  earned_value : ℚ
  actual_cost : ℚ
deriving Repr, DecidableEq

structure Project where
  planned_start : ℚ
  planned_end : ℚ
  budget : ℚ
deriving Repr, DecidableEq

structure Result where
  forecast_completion_date : Option ℚ
  forecast_final_cost : Option ℚ
  schedule_variance_days : Option ℤ
  cost_variance : Option ℚ
  completion_confidence : Option ℤ
deriving Repr, DecidableEq

def initResult : Result := ⟨none, none, none, none, none⟩

/-- `total_planned_value = tasks_data['planned_cost'].sum()`. -/
def totalPV (tasks : List Task) : ℚ := (tasks.map Task.planned_cost).sum

/-- `total_earned_value = tasks_data['earned_value'].sum()`. -/
def totalEV (tasks : List Task) : ℚ := (tasks.map Task.earned_value).sum

/-- `total_actual_cost = tasks_data['actual_cost'].sum()`. -/
def totalAC (tasks : List Task) : ℚ := (tasks.map Task.actual_cost).sum

/-- The SPI aggregated from the task rows (lines 155-160). -/
def taskSpi (tasks : List Task) : ℚ :=
  if totalPV tasks > 0 then totalEV tasks / totalPV tasks else 1

/-- The CPI aggregated from the task rows (lines 155-160). -/
def taskCpi (tasks : List Task) : ℚ :=
  if totalPV tasks > 0 then
    (if totalAC tasks > 0 then totalEV tasks / totalAC tasks else 1)
  else 1

/-- `forecast_project_completion(project_data, tasks_data, ...)` of
src/utils/advanced_analytics.py.  With an empty task table nothing is
computed and the all-`None` dictionary is returned.  The confidence
`int((min(1,spi)*0.5 + min(1,cpi)*0.5) * 100)` truncates a nonnegative
value, hence `Int.floor` (EVM inputs are nonnegative per the §6 contract). -/
def forecast_project_completion (now : ℚ) (p : Project) (tasks : List Task) :
    Result :=
  if tasks = [] then initResult
  else
    let ev := totalEV tasks
    let ac := totalAC tasks
    let spi := taskSpi tasks
    let cpi := taskCpi tasks
    let planned_duration := p.planned_end - p.planned_start
    let elapsed_days := now - p.planned_start
    let remaining_duration :=
      if spi > 0 then (planned_duration - elapsed_days) / spi
      else planned_duration - elapsed_days
    let fcd := p.planned_start + (elapsed_days + remaining_duration)
    let eac := if cpi > 0 then ac + (p.budget - ev) / cpi else p.budget * (3 / 2)
    { forecast_completion_date := some fcd
      forecast_final_cost := some eac
      schedule_variance_days := some ⌊fcd - p.planned_end⌋
      cost_variance := some (eac - p.budget)
      completion_confidence :=
        some ⌊(min 1 spi * (1 / 2) + min 1 cpi * (1 / 2)) * 100⌋ }

end Advanced

/-! ## EVM forecaster of src/utils/predictive_analytics.py
(`predict_project_completion`, lines 89-186)

Same data model as the advanced variant.  The three confidence fields and the
progress percentage of the result dictionary are not modelled (no claim
mentions them); the completion date, schedule variance, forecast cost and
cost variance are. -/

namespace Predictive

structure Result where
  forecast_completion_date : ℚ
  schedule_variance_days : ℚ
  forecast_cost : ℚ
  cost_variance : ℚ
deriving Repr, DecidableEq

/-- `progress_pct` before the cap (lines 114-130). -/
def progressOf (planned_duration elapsed_days : ℚ) (tasks : List Advanced.Task) : ℚ :=
  if tasks ≠ [] then
    (if Advanced.totalPV tasks > 0 then Advanced.totalEV tasks / Advanced.totalPV tasks
     else 0)
  else if planned_duration > 0 then elapsed_days / planned_duration else 0

/-- The SPI of lines 114-130: `ev/pv` with a `1.0` default. -/
def spiOf (tasks : List Advanced.Task) : ℚ :=
  if tasks ≠ [] then
    (if Advanced.totalPV tasks > 0 then Advanced.totalEV tasks / Advanced.totalPV tasks
     else 1)
  else 1

/-- The CPI of lines 114-130: `ev/ac` with a `1.0` default. -/
def cpiOf (tasks : List Advanced.Task) : ℚ :=
  if tasks ≠ [] then
    (if Advanced.totalPV tasks > 0 then
      (if Advanced.totalAC tasks > 0 then Advanced.totalEV tasks / Advanced.totalAC tasks
       else 1)
     else 1)
  else 1

/-- `predict_project_completion(project_data, tasks_data, ...)` of
src/utils/predictive_analytics.py, through the EAC computation.
`int(adjusted_remaining)` truncates a value already clamped to `≥ 0`,
hence `Int.floor`. -/
def predict_project_completion (now : ℚ) (p : Advanced.Project)
    (tasks : List Advanced.Task) : Result :=
  let planned_duration := p.planned_end - p.planned_start
  let elapsed_days := now - p.planned_start
  let progress := min 1 (progressOf planned_duration elapsed_days tasks)
  let spi := spiOf tasks
  let cpi := cpiOf tasks
  let remaining_duration := planned_duration - elapsed_days
  let adjusted_remaining :=
    if spi > 0 then remaining_duration / spi else remaining_duration * 2
  let adjusted_remaining := max 0 adjusted_remaining
  let remaining_days : ℤ := ⌊adjusted_remaining⌋
  let fcd := p.planned_start + (elapsed_days + (remaining_days : ℚ))
  let spent := p.budget * progress
  let eac := if cpi > 0 then spent + (p.budget - spent) / cpi else p.budget * 2
  { forecast_completion_date := fcd
    schedule_variance_days := (remaining_days : ℚ) - remaining_duration
    forecast_cost := eac
    cost_variance := eac - p.budget }

end Predictive

/-! ## Ensemble forecaster of src/app.py (`generate_ensemble_forecast`,
lines 2305-2513)

The whole body sits in a `try` whose `except` returns the results dictionary
in whatever state it had reached.  Two dynamic failures of the source are
modelled explicitly:

* when the EVM branch was skipped, `planned_duration`/`elapsed_days` are
  unbound, so a usable SPI trend hits a `NameError` inside the inner
  `try` of the ML stage, which nulls both ML forecasts;
* `ml_completion_date * 0.75 + evm_completion_date * 0.25` multiplies a
  datetime by a float — always a `TypeError` — so whenever the SPI trend
  model is usable the outer handler returns the results dictionary with
  every value still `None` except the accumulated `forecast_models` list.

`spi`/`cpi` being `none` stands for the key being absent (the §3 contract
nullable fields); `budget` is read unguardedly on several paths and is
modelled as always present, per the §6 ingestion contract. -/

namespace Ensemble

structure Project where
  planned_start : Option ℚ
  planned_end : Option ℚ
  spi : Option ℚ
  cpi : Option ℚ
  budget : ℚ
  actual_cost : Option ℚ
  completion_pct : Option ℚ
deriving Repr, DecidableEq

structure HistRow where
  month : ℕ
  spi : ℚ
  cpi : ℚ
deriving Repr, DecidableEq

structure Results where
  completion_date : Option ℚ
  completion_date_best : Option ℚ
  completion_date_worst : Option ℚ
  final_cost : Option ℚ
  final_cost_best : Option ℚ
  final_cost_worst : Option ℚ
  confidence : Option ℚ
  forecast_models : List String
deriving Repr, DecidableEq

def initResults : Results := ⟨none, none, none, none, none, none, none, []⟩

/-- `history_sorted = history_df.sort_values('month')`: stable insertion into
an already sorted prefix (months are unique per project by the §3 contract,
so any sort of the month column yields this order). -/
def insertByMonth (x : HistRow) : List HistRow → List HistRow
  | [] => [x]
  | y :: ys => if x.month < y.month then x :: y :: ys else y :: insertByMonth x ys

def sortByMonth (h : List HistRow) : List HistRow :=
  h.foldl (fun acc x => insertByMonth x acc) []

/-- Ordinary least squares of `ys` against the indices `0..n-1`
(`sklearn.linear_model.LinearRegression` on the single feature `month_num`):
slope `Sxy/Sxx` and intercept `ȳ - slope * x̄`. -/
def olsSlope (ys : List ℚ) : ℚ :=
  let n : ℚ := ys.length
  let xbar := (n - 1) / 2
  let ybar := ys.sum / n
  (((ys.enum).map (fun iy => ((iy.1 : ℚ) - xbar) * (iy.2 - ybar))).sum) /
    (((ys.enum).map (fun iy => ((iy.1 : ℚ) - xbar) ^ 2)).sum)

def olsIntercept (ys : List ℚ) : ℚ :=
  ys.sum / ys.length - olsSlope ys * ((ys.length : ℚ) - 1) / 2

/-- `np.mean(model.predict(future_months))` for
`future_months = n .. n+H-1`: the mean of the `H` next fitted values. -/
def olsForecastAvg (ys : List ℚ) (H : ℕ) : ℚ :=
  (((List.range H).map
      (fun (k : ℕ) =>
        olsIntercept ys + olsSlope ys * ((ys.length : ℚ) + (k : ℚ)))).sum) / H

/-- The EVM stage of the ensemble (lines 2357-2390). -/
structure EvmStage where
  taken : Bool
  planned_duration : ℚ
  elapsed_days : ℚ
  date : ℚ
  cost : ℚ
deriving Repr, DecidableEq

def evmStage (now ps pe : ℚ) (p : Project) : EvmStage :=
  match p.spi, p.cpi with
  | some s, some c =>
      if s > 0 then
        let pd := pe - ps
        let el := now - ps
        let evmDate := ps + (el + (pd - el) / s)
        let evmCost :=
          if c > 0 then
            let a : ℚ :=
              match p.actual_cost with
              | some a => a
              | none =>
                  let progress :=
                    match p.completion_pct with
                    | some q => q / 100
                    | none => (0.5 : ℚ)
                  p.budget * progress / c
            a + (p.budget - p.budget * s) / c
          else p.budget * (1.1 : ℚ)
        ⟨true, pd, el, evmDate, evmCost⟩
      else ⟨false, 0, 0, pe + 15, p.budget * (1.1 : ℚ)⟩
  | _, _ => ⟨false, 0, 0, pe + 15, p.budget * (1.1 : ℚ)⟩

/-- The ML stage of the ensemble (lines 2392-2446): the inner `try`.
Returns `(ml_completion_date, ml_final_cost)`.  When the EVM branch was not
taken and the projected SPI average is positive, the stage dies with a
`NameError` on `planned_duration` before anything is recorded, and the inner
handler sets both to `None`. -/
def mlStage (H : ℕ) (ps : ℚ) (evm : EvmStage) (p : Project)
    (hist : Option (List HistRow)) : Option ℚ × Option ℚ :=
  match hist with
  | none => (none, none)
  | some h =>
      if 3 ≤ h.length then
        let sorted := sortByMonth h
        let avgSpi := olsForecastAvg (sorted.map HistRow.spi) H
        let mlCost : Option ℚ :=
          match p.actual_cost with
          | some a =>
              let avgCpi := olsForecastAvg (sorted.map HistRow.cpi) H
              if avgCpi > 0 then some (a + (p.budget - a) / avgCpi) else none
          | none => none
        if avgSpi > 0 then
          if evm.taken then
            (some (ps + (evm.elapsed_days +
              (evm.planned_duration - evm.elapsed_days) / avgSpi)), mlCost)
          else (none, none)
        else (none, mlCost)
      else (none, none)

/-- `generate_ensemble_forecast(project, tasks_df, history_df)` of src/app.py.
`now` is `datetime.now()`, `H` the session forecast horizon. -/
def generate_ensemble_forecast (now : ℚ) (H : ℕ) (p : Project)
    (hist : Option (List HistRow)) : Results :=
  match p.planned_start, p.planned_end with
  | none, _ => initResults
  | some _, none => initResults
  | some ps, some pe =>
      let evm := evmStage now ps pe p
      let models0 := if evm.taken then ["EVM"] else []
      let ml := mlStage H ps evm p hist
      match ml.1 with
      | some _ =>
          -- the `TypeError` path: only `forecast_models` has been mutated
          { initResults with
            forecast_models := models0 ++ ["Linear Regression"] }
      | none =>
          let completion_date := evm.date
          let final_cost :=
            match ml.2 with
            | some m => m * (0.75 : ℚ) + evm.cost * (0.25 : ℚ)
            | none => evm.cost
          let completion_buffer := (pe - ps) * (0.15 : ℚ)
          { completion_date := some completion_date
            completion_date_best := some (completion_date - completion_buffer / 2)
            completion_date_worst := some (completion_date + completion_buffer)
            final_cost := some final_cost
            final_cost_best := some (final_cost * (0.95 : ℚ))
            final_cost_worst := some (final_cost * (1.2 : ℚ))
            confidence := some (0.6 : ℚ)
            forecast_models := models0 }

end Ensemble

/-! ## Attention filter of src/utils/data_processor.py
(`get_projects_needing_attention`, lines 140-193)

`history_df.groupby('project_id')` + per-group sort + `iloc[-1]` picks,
for each project, the history row with the largest month (the latest
occurrence wins a month tie, matching a stable month sort followed by
`iloc[-1]`).  The left merge brings the latest `spi`/`cpi` onto each project
row; missing matches and null cells are filled with `1.0`.
`sort_values('risk_score', ascending=False)` runs with the default
`kind='quicksort'`, which is not stable, and pandas promises nothing about
the relative order of equal keys on the descending path; all the program
guarantees is *some* permutation of the rows arranged by non-increasing
risk score.  The sorting routine is therefore a parameter of the embedding,
constrained by exactly that contract (`scoreDescSorted`); each produced row
carries its position `idx` in the merged (input) order so that statements
about tie order can be made about any given routine. -/

namespace DataProcessor

structure AttnProject where
  project_id : ℕ
  status : String
deriving Repr, DecidableEq

structure AttnHistRow where
  project_id : ℕ
  month : ℕ
  spi : Option ℚ
  cpi : Option ℚ
deriving Repr, DecidableEq

/-- The latest history row of a project:
`history_df.groupby('project_id').apply(lambda x: x.sort_values('month').iloc[-1])`. -/
def latestPerf (h : List AttnHistRow) (pid : ℕ) : Option AttnHistRow :=
  (h.filter (fun r => r.project_id == pid)).foldl
    (fun acc r =>
      match acc with
      | none => some r
      | some a => if r.month ≥ a.month then some r else some a)
    none

/-- `merged_data['spi']` after the left merge and `fillna(1.0)`. -/
def mergedSpi (h : List AttnHistRow) (pid : ℕ) : ℚ :=
  match latestPerf h pid with
  | none => 1
  | some r => r.spi.getD 1

/-- `merged_data['cpi']` after the left merge and `fillna(1.0)`. -/
def mergedCpi (h : List AttnHistRow) (pid : ℕ) : ℚ :=
  match latestPerf h pid with
  | none => 1
  | some r => r.cpi.getD 1

/-- The filter `(spi < spi_threshold) | (cpi < cpi_threshold) |
status.isin(['At Risk', 'Delayed'])`. -/
def qualifies (spiT cpiT spi cpi : ℚ) (status : String) : Bool :=
  decide (spi < spiT) || decide (cpi < cpiT) ||
    (status == "At Risk") || (status == "Delayed")

/-- One row of `attention_projects` after the `risk_score` assignment;
`idx` is the row's position in the merged (input) order. -/
structure AttnRow where
  idx : ℕ
  project_id : ℕ
  status : String
  spi : ℚ
  cpi : ℚ
  risk_score : ℚ
deriving Repr, DecidableEq

/-- The merged, filtered rows with their
`risk_score = (1 - spi)*0.5 + (1 - cpi)*0.5`, in input order. -/
def attentionRows (spiT cpiT : ℚ) (projects : List AttnProject)
    (h : List AttnHistRow) : List AttnRow :=
  (projects.enum).filterMap (fun ip =>
    let spi := mergedSpi h ip.2.project_id
    let cpi := mergedCpi h ip.2.project_id
    if qualifies spiT cpiT spi cpi ip.2.status then
      some ⟨ip.1, ip.2.project_id, ip.2.status, spi, cpi,
        (1 - spi) * (0.5 : ℚ) + (1 - cpi) * (0.5 : ℚ)⟩
    else none)

/-- The full contract of
`attention_projects.sort_values('risk_score', ascending=False)` with the
default unstable `kind='quicksort'`: the output is a permutation of the
input arranged by non-increasing `risk_score`.  Nothing more is promised —
in particular no tie order. -/
def scoreDescSorted (sorter : List AttnRow → List AttnRow) : Prop :=
  ∀ l : List AttnRow,
    List.Perm (sorter l) l ∧
    (sorter l).Pairwise (fun a b => b.risk_score ≤ a.risk_score)

/-- `get_projects_needing_attention(projects_df, history_df, spi_threshold,
cpi_threshold)` of src/utils/data_processor.py, parameterised by the
sorting routine standing for `sort_values` (any routine satisfying
`scoreDescSorted` is a legitimate behaviour of the unstable quicksort
call). -/
def get_projects_needing_attention (sorter : List AttnRow → List AttnRow)
    (projects : List AttnProject) (h : List AttnHistRow) (spiT cpiT : ℚ) :
    List AttnRow :=
  sorter (attentionRows spiT cpiT projects h)

/-- Insertion by `risk_score` with a parametric placement test `f`:
`f x y = true` lets the inserted `x` pass in front of `y`.  Used to build
concrete sorting routines satisfying `scoreDescSorted`. -/
def insertBy (f : AttnRow → AttnRow → Bool) (x : AttnRow) :
    List AttnRow → List AttnRow
  | [] => [x]
  | y :: ys => if f x y then x :: y :: ys else y :: insertBy f x ys

def sortBy (f : AttnRow → AttnRow → Bool) (l : List AttnRow) : List AttnRow :=
  l.foldl (fun acc x => insertBy f x acc) []

/-- A descending insertion sort that lets a later-inserted element pass
elements of *equal* score: equal-score rows end up in reversed input
order.  A perfectly legitimate behaviour of an unstable sort. -/
def sortTiesReversed : List AttnRow → List AttnRow :=
  sortBy (fun x y => decide (y.risk_score ≤ x.risk_score))

/-- A descending insertion sort that keeps equal-score rows in input
order (a stable behaviour, equally compatible with the contract). -/
def sortTiesInOrder : List AttnRow → List AttnRow :=
  sortBy (fun x y => decide (y.risk_score < x.risk_score))

end DataProcessor

/-! ## Batch loop and cache of src/app.py (`generate_project_forecasts`,
lines 2241-2303)

The ambient `st.session_state` is an explicit state record.  The per-project
loop stores one entry per project row under its `project_id`; the
`insights` strings and the anomaly-flag enrichment of each entry are not
modelled (no claim depends on the entry payload beyond the forecast
itself). -/

namespace App

structure Session where
  data_loaded : Bool
  projects : List FcProject
  project_forecasts : Option (List (ℕ × FcResult))
  forecast_generated_at : Option ℚ
deriving Repr, DecidableEq

/-- The recomputation loop `for _, project in st.session_state.projects_df.iterrows()`. -/
def computeForecasts (now : ℚ) (s : Session) : List (ℕ × FcResult) :=
  s.projects.map (fun p => (p.project_id, forecast_project_completion now p))

/-- `generate_project_forecasts()` of src/app.py: serves the cached dictionary
when one is present, non-empty (Python truthiness) and generated less than
3600 seconds ago; otherwise recomputes and stamps the session.  Returns the
produced dictionary together with the updated session state. -/
def generate_project_forecasts (now : ℚ) (s : Session) :
    List (ℕ × FcResult) × Session :=
  if ¬ s.data_loaded then ([], s)
  else
    let recompute : List (ℕ × FcResult) × Session :=
      let fs := computeForecasts now s
      (fs, { s with project_forecasts := some fs, forecast_generated_at := some now })
    match s.project_forecasts, s.forecast_generated_at with
    | some fs, some t =>
        if fs ≠ [] ∧ now - t < 3600 then (fs, s) else recompute
    | _, _ => recompute

end App

/-! ## Frame-level view of the anomaly-detection entry points

For the frame-effect claim the three entry points are modelled over an
explicit column-store: a frame is its ordered list of named columns, a cell
is `none` when NaN.  Every pandas write in the sources targets either the
`.copy()` of the input or a frame freshly constructed in the body; writing a
column is the functional `colSet` on that value.  The fitted estimators
(`StandardScaler` + `IsolationForest`) are external to the embedding: they
are injected as functions from the extracted feature matrix to their
predictions, which is all the frame bookkeeping can observe. -/

namespace Frames

/-- A dataframe as its ordered, named columns; a cell is `none` when NaN.
Boolean result cells are encoded numerically (1/0) — only their placement
matters to the claims stated here. -/
abbrev Frame : Type := List (String × List (Option ℚ))

def nrows (f : Frame) : ℕ :=
  match f with
  | [] => 0
  | c :: _ => c.2.length

/-- `df.empty`: no columns or no rows. -/
def frameEmpty (f : Frame) : Bool :=
  match f with
  | [] => true
  | c :: _ => c.2.length == 0

/-- Column read: `df[name]`. -/
def colGet (f : Frame) (name : String) : Option (List (Option ℚ)) :=
  (f.find? (fun nc => nc.1 == name)).map (fun nc => nc.2)

/-- Column write `df[name] = cells`: overwrite in place or append. -/
def colSet (f : Frame) (name : String) (cells : List (Option ℚ)) : Frame :=
  match f with
  | [] => [(name, cells)]
  | nc :: rest =>
      if nc.1 == name then (name, cells) :: rest
      else nc :: colSet rest name cells

/-- `series.fillna(series.mean())`: the mean is taken over the non-NaN cells. -/
def colFillMean (c : List (Option ℚ)) : List ℚ :=
  let present := c.filterMap id
  let m := present.sum / present.length
  c.map (fun v => v.getD m)

/-- Extract and mean-fill the feature matrix `df[names].fillna(df[names].mean())`. -/
def featureMatrix (f : Frame) (names : List String) : List (List ℚ) :=
  (names.filterMap (colGet f)).map colFillMean

/-- `'sub' in s` for strings (used by the feature exclusion of
`detect_anomalies`). -/
def containsSub (s sub : String) : Bool := (s.splitOn sub).length != 1

/-- `detect_project_anomalies(projects_df, metrics_df, contamination)` of
src/app.py: the input frames are only read; the returned anomaly table is a
freshly built frame holding exactly the columns `is_anomaly` and
`anomaly_score`.  Small inputs take the statistical fallback
(`detectFallback`); otherwise the injected scaler+forest pipeline supplies
`predictions` and `decision_function` scores. -/
def app_detect_project_anomalies
    (forest : List (List ℚ) → List ℤ × List ℚ)
    (projects_df metrics_df : Frame) : Frame :=
  if frameEmpty projects_df || frameEmpty metrics_df then []
  else
    let filled := metrics_df.map (fun nc => (nc.1, colFillMean nc.2))
    let n := nrows metrics_df
    if n < 10 then
      let res := detectFallback (filled.map (fun nc => nc.2)) n
      [("is_anomaly", res.map (fun r => some (if r.1 then (1 : ℚ) else 0))),
       ("anomaly_score", res.map (fun r => some ((r.2 : ℚ))))]
    else
      let fm := filled.map (fun nc => nc.2)
      let preds := (forest fm).1
      let scores := (forest fm).2
      [("is_anomaly", preds.map (fun z => some (if z = -1 then (1 : ℚ) else 0))),
       ("anomaly_score", scores.map (fun q => some |q|))]

/-- `detect_project_anomalies(projects_df, metrics, contamination)` of
src/utils/advanced_analytics.py: `result_df = projects_df.copy()` and the two
anomaly columns are written to that copy; on the degenerate branches the
input frame itself is returned. -/
def advanced_detect_project_anomalies
    (forest : List (List ℚ) → List ℤ)
    (projects_df : Frame) (metrics : List String) : Frame :=
  if frameEmpty projects_df then projects_df
  else
    let valid := metrics.filter (fun m => (colGet projects_df m).isSome)
    if valid = [] then projects_df
    else
      let result_df := projects_df
      let preds := forest (featureMatrix result_df valid)
      let result_df := colSet result_df "anomaly_score"
        (preds.map (fun z => some ((z : ℚ))))
      let result_df := colSet result_df "is_anomaly"
        (preds.map (fun z => some (if z = -1 then (1 : ℚ) else 0)))
      result_df

/-- `detect_anomalies(project_data, method, contamination)` of
src/utils/predictive_analytics.py: feature columns are the numeric columns
whose lowercased name avoids `id`/`date`/`month`; both methods write their
two result columns to the `.copy()`; an unknown method returns the copy
untouched.  `zrow` abstracts the z-score pipeline
(`np.mean(np.abs(scaler.fit_transform(X)), axis=1)`). -/
def predictive_detect_anomalies
    (forest : List (List ℚ) → List ℤ)
    (zrow : List (List ℚ) → List ℚ)
    (project_data : Frame) (method : String) : Frame :=
  if frameEmpty project_data then project_data
  else
    let features := (project_data.map (fun nc => nc.1)).filter (fun c =>
      !containsSub c.toLower "id" && !containsSub c.toLower "date" &&
        !containsSub c.toLower "month")
    if features = [] then project_data
    else
      let result_df := project_data
      let X := featureMatrix result_df features
      if method == "isolation_forest" then
        let preds := forest X
        colSet (colSet result_df "anomaly_score" (preds.map (fun z => some ((z : ℚ)))))
          "is_anomaly" (preds.map (fun z => some (if z = -1 then (1 : ℚ) else 0)))
      else if method == "zscore" then
        let zs := zrow X
        colSet (colSet result_df "anomaly_score" (zs.map some))
          "is_anomaly" (zs.map (fun z => some (if z > (2.5 : ℚ) then (1 : ℚ) else 0)))
      else result_df

/-- Reading any column other than the two written ones is unaffected by a
`colSet` of those. -/
lemma colGet_colSet_ne (f : Frame) (name name' : String) (cells : List (Option ℚ))
    (hne : name' ≠ name) : colGet (colSet f name cells) name' = colGet f name' := by
  induction f with
  | nil =>
      simp only [colSet, colGet, List.find?]
      have : (name == name') = false := by
        rw [beq_eq_false_iff_ne]
        exact fun hcon => hne hcon.symm
      simp [this]
  | cons nc rest ih =>
      simp only [colSet]
      by_cases h : nc.1 == name
      · simp only [h, if_true]
        have h1 : (name == name') = false := by
          rw [beq_eq_false_iff_ne]
          exact fun hcon => hne hcon.symm
        have h2 : (nc.1 == name') = false := by
          rw [beq_eq_false_iff_ne]
          intro hcon
          rw [eq_of_beq h] at hcon
          exact hne hcon.symm
        simp [colGet, List.find?, h1, h2]
      · simp only [h, if_false]
        by_cases h' : nc.1 == name'
        · simp [colGet, List.find?, h']
        · simp only [colGet, List.find?, h'] at ih ⊢
          exact ih

end Frames

/-- A column position below the (≤ 10) column length never flags. -/
lemma flagAt_eq_false_of_short (c : List ℚ) (hc : c.length ≤ 10) (j : ℕ)
    (hj : j < c.length) : flagAt j c = false := by
  unfold flagAt
  apply isOutlier_eq_false_of_short c hc
  rw [List.getD_eq_getElem c 0 hj]
  exact List.getElem_mem hj

/-! # Claims -/

/-- C1, counterexample.  The spec example asserts that among 9 projects a
value lying more than three standard deviations away from the other eight is
flagged.  Take eight zeros and one 9: the other eight values have mean 0 and
(sample) standard deviation 0, so the 9 lies more than three of *their*
standard deviations away — yet the fallback, which measures against the
whole column (whose sample std is 3), flags nothing: every row of the result
is `(False, 0)`. -/
theorem c1_counterexample_spec_example :
    colVar [(0 : ℚ), 0, 0, 0, 0, 0, 0, 0] = 0 ∧
    ((9 : ℚ) - colMean [(0 : ℚ), 0, 0, 0, 0, 0, 0, 0]) ^ 2 >
      9 * colVar [(0 : ℚ), 0, 0, 0, 0, 0, 0, 0] ∧
    detectFallback [[(0 : ℚ), 0, 0, 0, 0, 0, 0, 0, 9]] 9 =
      List.replicate 9 (false, 0) := by
  refine ⟨?_, ?_, ?_⟩
  · norm_num [colVar, colMean]
  · norm_num [colVar, colMean]
  · rw [detectFallback_eq _ _ (by simp)]
    refine List.eq_replicate_iff.mpr ⟨by simp, ?_⟩
    intro b hb
    obtain ⟨j, hj, rfl⟩ := List.mem_map.mp hb
    have hflag : flagAt j [(0 : ℚ), 0, 0, 0, 0, 0, 0, 0, 9] = false :=
      flagAt_eq_false_of_short _ (by norm_num) j
        (by simpa using List.mem_range.mp hj)
    simp [hflag]

/-- C1 (amended): with fewer than 10 rows the fallback computes, per metric
column, the column mean and sample standard deviation and flags the rows
lying strictly beyond three of them, scoring each row by the number of
flagging columns — but that condition is unsatisfiable on so few rows
(Samuelson's inequality), so every row of every such input is returned as
`(is_anomaly = False, anomaly_score = 0)`; in particular no 9-project input
ever yields a flagged row. -/
theorem c1_small_sample_never_flags (cols : List (List ℚ)) (n : ℕ)
    (hn : n < 10) (h : ∀ c ∈ cols, c.length = n) :
    detectFallback cols n =
      (List.range n).map (fun j => (cols.any (flagAt j), cols.countP (flagAt j))) ∧
    ∀ r ∈ detectFallback cols n, r = (false, 0) := by
  have heq := detectFallback_eq cols n h
  refine ⟨heq, ?_⟩
  rw [heq]
  intro r hr
  obtain ⟨j, hj, rfl⟩ := List.mem_map.mp hr
  have hflag : ∀ c ∈ cols, flagAt j c = false := by
    intro c hc
    have hcl : c.length = n := h c hc
    exact flagAt_eq_false_of_short c (by omega) j
      (by rw [hcl]; exact List.mem_range.mp hj)
  have hany : cols.any (flagAt j) = false := by
    rw [List.any_eq_false]
    intro c hc
    simp [hflag c hc]
  have hcount : cols.countP (flagAt j) = 0 := by
    rw [List.countP_eq_zero]
    intro c hc
    simp [hflag c hc]
  rw [hany, hcount]

/-- C1 witness: the amended theorem applied to the counterexample input. -/
theorem c1_small_sample_never_flags_witness :
    detectFallback [[(0 : ℚ), 0, 0, 0, 0, 0, 0, 0, 9]] 9 =
      List.replicate 9 (false, 0) := by
  have h := c1_small_sample_never_flags [[(0 : ℚ), 0, 0, 0, 0, 0, 0, 0, 9]] 9
    (by norm_num)
    (by simp)
  refine List.eq_replicate_iff.mpr ⟨?_, h.2⟩
  rw [h.1]
  simp

/-- C10: in the small-sample fallback the returned flag and score agree row
by row — `is_anomaly` is `True` iff at least one column flagged the row, i.e.
iff `anomaly_score ≥ 1` — and the score never exceeds the number of metric
columns examined. -/
theorem c10_fallback_flag_score_consistent (cols : List (List ℚ)) (n : ℕ)
    (h : ∀ c ∈ cols, c.length = n) :
    ∀ r ∈ detectFallback cols n,
      (r.1 = true ↔ 1 ≤ r.2) ∧ r.2 ≤ cols.length := by
  rw [detectFallback_eq cols n h]
  intro r hr
  obtain ⟨j, _, rfl⟩ := List.mem_map.mp hr
  refine ⟨?_, List.countP_le_length _⟩
  constructor
  · intro ha
    obtain ⟨c, hc, hflag⟩ := List.any_eq_true.mp ha
    exact List.countP_pos_iff.mpr ⟨c, hc, hflag⟩
  · intro hs
    obtain ⟨c, hc, hflag⟩ :=
      List.countP_pos_iff.mp (Nat.lt_of_lt_of_le Nat.zero_lt_one hs)
    exact List.any_eq_true.mpr ⟨c, hc, hflag⟩

/-- C10 witness: the consistency theorem applied to a concrete one-column
matrix with three rows, at the concrete result row `(False, 0)`. -/
theorem c10_fallback_flag_score_consistent_witness :
    (((false, 0) : Bool × ℕ) ∈ detectFallback [[(1 : ℚ), 2, 3]] 3) ∧
    ((false, 0) : Bool × ℕ).2 ≤ [[(1 : ℚ), 2, 3]].length := by
  have hm : ((false, 0) : Bool × ℕ) ∈ detectFallback [[(1 : ℚ), 2, 3]] 3 := by
    rw [detectFallback_eq _ _ (by simp)]
    refine List.mem_map.mpr ⟨0, by norm_num, ?_⟩
    have hflag : flagAt 0 [(1 : ℚ), 2, 3] = false :=
      flagAt_eq_false_of_short _ (by norm_num) 0 (by norm_num)
    simp [hflag]
  exact ⟨hm, (c10_fallback_flag_score_consistent [[(1 : ℚ), 2, 3]] 3 (by simp)
    _ hm).2⟩

/-- The schedule branch never touches the cost forecast. -/
lemma scheduleStage_final_cost_none (now : ℚ) (p : App.FcProject) :
    (App.scheduleStage now p).forecast_final_cost = none := by
  unfold App.scheduleStage
  rcases p.planned_end with _ | pe
  · rfl
  · rcases p.planned_start with _ | ps
    · rfl
    · rcases p.spi with _ | s
      · rfl
      · by_cases h : s > 0
        · simp [h, App.initFcResult]
        · simp [h, App.initFcResult]

/-- C3, counterexample.  The ensemble forecaster (the third source of the
claim) computes its EVM cost as `actual_cost + (budget - budget*spi)/cpi`,
not `actual_cost + (budget - actual_cost)/cpi`: with budget 100, SPI 0.8,
CPI 0.5 and actual cost 50 (no history, so the EVM cost is returned as the
final cost) it yields 90, while the claimed formula yields 150. -/
theorem c3_counterexample_ensemble_eac :
    (Ensemble.generate_ensemble_forecast 50 3
      { planned_start := some 0, planned_end := some 100, spi := some (0.8 : ℚ),
        cpi := some (0.5 : ℚ), budget := 100, actual_cost := some 50,
        completion_pct := none } none).final_cost = some 90 ∧
    (90 : ℚ) ≠ 50 + (100 - 50) / (0.5 : ℚ) := by
  constructor
  · norm_num [Ensemble.generate_ensemble_forecast, Ensemble.evmStage,
      Ensemble.mlStage]
  · norm_num

/-- C3 (amended): the claimed formula holds for `forecast_project_completion`
of src/app.py — for every project with a budget, a positive CPI and a known
actual cost, `EAC = actual_cost + (budget - actual_cost)/cpi`, and
`EAC = budget` whenever `cpi = 1` (in particular at
`actual_cost = budget * progress`).  The ensemble forecaster instead
subtracts `budget*spi`, and the advanced-analytics variant subtracts the
earned value. -/
theorem c3_app_eac_formula (now : ℚ) (p : App.FcProject) (b c a : ℚ)
    (hb : p.budget = some b) (hc : p.cpi = some c) (hcpos : 0 < c)
    (ha : p.actual_cost = some a) :
    (App.forecast_project_completion now p).forecast_final_cost =
      some (a + (b - a) / c) ∧
    (c = 1 → (App.forecast_project_completion now p).forecast_final_cost =
      some b) := by
  have hmain : (App.forecast_project_completion now p).forecast_final_cost =
      some (a + (b - a) / c) := by
    simp only [App.forecast_project_completion, hb, hc, ha]
    simp [hcpos]
  refine ⟨hmain, fun h1 => ?_⟩
  rw [hmain, h1]
  norm_num

/-- C3 witness: the amended theorem at a concrete project with CPI 1. -/
theorem c3_app_eac_formula_witness :
    (App.forecast_project_completion 0
      { project_id := 1, planned_start := none, planned_end := none,
        spi := none, cpi := some 1, budget := some 100,
        actual_cost := some 60, completion_pct := none }).forecast_final_cost =
      some 100 :=
  (c3_app_eac_formula 0 _ 100 1 60 rfl rfl (by norm_num) rfl).2 rfl

/-- C5, counterexample.  For a task set with positive actual cost and zero
earned value the aggregated CPI is 0; `predict_project_completion` of
src/utils/predictive_analytics.py then forecasts `budget * 2`, not the
claimed `budget * 1.5`. -/
theorem c5_counterexample_predictive_fallback :
    (Predictive.predict_project_completion 50
      { planned_start := 0, planned_end := 100, budget := 100 }
      [{ planned_cost := 10, earned_value := 0, actual_cost := 5 }]).forecast_cost
      = 200 ∧ (200 : ℚ) ≠ 100 * (1.5 : ℚ) := by
  constructor
  · norm_num [Predictive.predict_project_completion, Predictive.progressOf,
      Predictive.spiOf, Predictive.cpiOf, Advanced.totalPV, Advanced.totalEV,
      Advanced.totalAC]
  · norm_num

/-- C5 (amended): no forecaster divides by a non-positive CPI, but their
fallbacks differ — advanced_analytics returns `budget * 1.5`,
predictive_analytics returns `budget * 2`, and `forecast_project_completion`
of src/app.py skips the cost branch, leaving the cost forecast null. -/
theorem c5_cpi_guard_fallbacks :
    (∀ (now : ℚ) (p : Advanced.Project) (tasks : List Advanced.Task),
      tasks ≠ [] → Advanced.taskCpi tasks ≤ 0 →
      (Advanced.forecast_project_completion now p tasks).forecast_final_cost =
        some (p.budget * (1.5 : ℚ))) ∧
    (∀ (now : ℚ) (p : Advanced.Project) (tasks : List Advanced.Task),
      Predictive.cpiOf tasks ≤ 0 →
      (Predictive.predict_project_completion now p tasks).forecast_cost =
        p.budget * 2) ∧
    (∀ (now : ℚ) (p : App.FcProject),
      (p.cpi = none ∨ ∃ c, p.cpi = some c ∧ c ≤ 0) →
      (App.forecast_project_completion now p).forecast_final_cost = none) := by
  refine ⟨?_, ?_, ?_⟩
  · intro now p tasks ht hc
    unfold Advanced.forecast_project_completion
    rw [if_neg ht]
    have hng : ¬ Advanced.taskCpi tasks > 0 := by linarith
    simp only [hng, if_false]
    norm_num
  · intro now p tasks hc
    unfold Predictive.predict_project_completion
    have hng : ¬ Predictive.cpiOf tasks > 0 := by linarith
    simp [hng]
  · intro now p hcase
    unfold App.forecast_project_completion
    rcases hcase with hnone | ⟨c, hcv, hc⟩
    · rw [hnone]
      rcases p.budget with _ | b
      · exact scheduleStage_final_cost_none now p
      · exact scheduleStage_final_cost_none now p
    · rw [hcv]
      rcases p.budget with _ | b
      · exact scheduleStage_final_cost_none now p
      · have hng : ¬ c > 0 := by linarith
        simp only [hng, if_false]
        exact scheduleStage_final_cost_none now p

/-- C5 witness: the predictive conjunct of the amended theorem at the
counterexample input. -/
theorem c5_cpi_guard_fallbacks_witness :
    (Predictive.predict_project_completion 50
      { planned_start := 0, planned_end := 100, budget := 100 }
      [{ planned_cost := 10, earned_value := 0, actual_cost := 5 }]).forecast_cost
      = 100 * 2 := by
  apply c5_cpi_guard_fallbacks.2.1
  norm_num [Predictive.cpiOf, Advanced.totalPV, Advanced.totalEV,
    Advanced.totalAC]

/-- A project with three months of perfectly flat history: the trend model is
usable (projected SPI average 1). -/
def c2Project : Ensemble.Project :=
  { planned_start := some 0, planned_end := some 100, spi := some 1,
    cpi := some 1, budget := 100, actual_cost := some 40,
    completion_pct := none }

def c2History : List Ensemble.HistRow := [⟨0, 1, 1⟩, ⟨1, 1, 1⟩, ⟨2, 1, 1⟩]

/-- C2 (code bug, evaluated at a failing input): with three months of flat
history the SPI trend model is usable — `mlStage` returns a completion
date — but the blending line `ml_completion_date * 0.75 +
evm_completion_date * 0.25` multiplies a datetime by a float and raises
`TypeError`, so the returned forecast is entirely null (completion date,
costs and confidence all `None`, only `forecast_models` populated) instead
of the claimed weighted blend with confidence 80.  On the no-trend path the
confidence is 0.6 — and the code constants 0.6/0.8 differ from the claimed
60/80 in any case. -/
theorem c2_ensemble_blend_crash :
    (Ensemble.mlStage 3 0 (Ensemble.evmStage 50 0 100 c2Project) c2Project
      (some c2History)).1 ≠ none ∧
    Ensemble.generate_ensemble_forecast 50 3 c2Project (some c2History) =
      { Ensemble.initResults with
        forecast_models := ["EVM", "Linear Regression"] } ∧
    (Ensemble.generate_ensemble_forecast 50 3 c2Project none).confidence =
      some (0.6 : ℚ) ∧
    (0.6 : ℚ) ≠ 60 ∧ (0.8 : ℚ) ≠ 80 := by
  refine ⟨?_, ?_, ?_, by norm_num, by norm_num⟩
  · norm_num [Ensemble.mlStage, Ensemble.evmStage, c2Project, c2History,
      Ensemble.sortByMonth, Ensemble.insertByMonth, Ensemble.olsForecastAvg,
      Ensemble.olsIntercept, Ensemble.olsSlope, List.enum, List.enumFrom,
      List.foldl, List.range_succ]
    simp
  · norm_num [Ensemble.generate_ensemble_forecast, Ensemble.mlStage,
      Ensemble.evmStage, c2Project, c2History, Ensemble.sortByMonth,
      Ensemble.insertByMonth, Ensemble.olsForecastAvg, Ensemble.olsIntercept,
      Ensemble.olsSlope, List.enum, List.enumFrom, List.foldl,
      List.range_succ, Ensemble.initResults]
  · norm_num [Ensemble.generate_ensemble_forecast, Ensemble.mlStage,
      Ensemble.evmStage, c2Project]

/-- Closed form of the mean of the `H` projected values. -/
lemma olsForecastAvg_closed (ys : List ℚ) (H : ℕ) (hH : 0 < H) :
    Ensemble.olsForecastAvg ys H =
      Ensemble.olsIntercept ys +
        Ensemble.olsSlope ys * ((ys.length : ℚ) + ((H : ℚ) - 1) / 2) := by
  have key : ∀ (A B n : ℚ) (K : ℕ),
      ((List.range K).map (fun (k : ℕ) => A + B * (n + (k : ℚ)))).sum =
        K * A + B * (K * n + (K : ℚ) * ((K : ℚ) - 1) / 2) := by
    intro A B n K
    induction K with
    | zero => simp
    | succ m ihm =>
        rw [List.range_succ, List.map_append, List.sum_append, ihm]
        push_cast
        simp only [List.map_cons, List.map_nil, List.sum_cons, List.sum_nil]
        ring
  unfold Ensemble.olsForecastAvg
  rw [key]
  have hH0 : (H : ℚ) ≠ 0 := by positivity
  field_simp
  ring

/-- C6: the trend model runs only on at least three history points; it is the
ordinary-least-squares fit of SPI (and CPI) against the chronological month
index, projected `H` months forward and averaged — the average being
`intercept + slope * (n + (H-1)/2)` — and a zero or negative projected
average rejects the model, leaving the EVM-only forecast. -/
theorem c6_trend_model_gating :
    (∀ (H : ℕ) (ps : ℚ) (evm : Ensemble.EvmStage) (p : Ensemble.Project),
      Ensemble.mlStage H ps evm p none = (none, none)) ∧
    (∀ (H : ℕ) (ps : ℚ) (evm : Ensemble.EvmStage) (p : Ensemble.Project)
        (h : List Ensemble.HistRow), h.length < 3 →
      Ensemble.mlStage H ps evm p (some h) = (none, none)) ∧
    (∀ (ys : List ℚ) (H : ℕ), 0 < H →
      Ensemble.olsForecastAvg ys H =
        Ensemble.olsIntercept ys +
          Ensemble.olsSlope ys * ((ys.length : ℚ) + ((H : ℚ) - 1) / 2)) ∧
    (∀ (H : ℕ) (ps : ℚ) (evm : Ensemble.EvmStage) (p : Ensemble.Project)
        (h : List Ensemble.HistRow), 3 ≤ h.length →
      Ensemble.olsForecastAvg
        ((Ensemble.sortByMonth h).map Ensemble.HistRow.spi) H ≤ 0 →
      (Ensemble.mlStage H ps evm p (some h)).1 = none) ∧
    (∀ (H : ℕ) (ps : ℚ) (evm : Ensemble.EvmStage) (p : Ensemble.Project)
        (h : List Ensemble.HistRow), 3 ≤ h.length → evm.taken = true →
      0 < Ensemble.olsForecastAvg
        ((Ensemble.sortByMonth h).map Ensemble.HistRow.spi) H →
      (Ensemble.mlStage H ps evm p (some h)).1 =
        some (ps + (evm.elapsed_days +
          (evm.planned_duration - evm.elapsed_days) /
            Ensemble.olsForecastAvg
              ((Ensemble.sortByMonth h).map Ensemble.HistRow.spi) H))) := by
  refine ⟨fun _ _ _ _ => rfl, ?_, fun ys H hH => olsForecastAvg_closed ys H hH,
    ?_, ?_⟩
  · intro H ps evm p h hlen
    simp only [Ensemble.mlStage]
    rw [if_neg (by omega : ¬ 3 ≤ h.length)]
  · intro H ps evm p h hlen havg
    simp only [Ensemble.mlStage, if_pos hlen]
    rw [if_neg (by linarith : ¬ Ensemble.olsForecastAvg
      ((Ensemble.sortByMonth h).map Ensemble.HistRow.spi) H > 0)]
  · intro H ps evm p h hlen htaken havg
    simp only [Ensemble.mlStage, if_pos hlen, htaken]
    rw [if_pos havg]
    simp

/-- C6 witness: the insufficient-history conjunct at one history row. -/
theorem c6_trend_model_gating_witness :
    Ensemble.mlStage 3 0 ⟨false, 0, 0, 0, 0⟩
      { planned_start := some 0, planned_end := some 100, spi := none,
        cpi := none, budget := 0, actual_cost := none, completion_pct := none }
      (some [⟨0, 1, 1⟩]) = (none, none) :=
  c6_trend_model_gating.2.1 3 0 ⟨false, 0, 0, 0, 0⟩ _ [⟨0, 1, 1⟩] (by norm_num)

/-- C7: a project missing `planned_start` or `planned_end` gets the null
forecast result instead of an exception, and the batch loop of
`generate_project_forecasts` yields a forecast entry for every project row
of the session. -/
theorem c7_null_result_and_batch_totality :
    (∀ (now : ℚ) (H : ℕ) (p : Ensemble.Project)
        (hist : Option (List Ensemble.HistRow)), p.planned_start = none →
      Ensemble.generate_ensemble_forecast now H p hist = Ensemble.initResults) ∧
    (∀ (now : ℚ) (H : ℕ) (p : Ensemble.Project)
        (hist : Option (List Ensemble.HistRow)), p.planned_end = none →
      Ensemble.generate_ensemble_forecast now H p hist = Ensemble.initResults) ∧
    (∀ (now : ℚ) (s : App.Session) (p : App.FcProject), p ∈ s.projects →
      (p.project_id, App.forecast_project_completion now p) ∈
        App.computeForecasts now s) := by
  refine ⟨?_, ?_, ?_⟩
  · intro now H p hist hps
    unfold Ensemble.generate_ensemble_forecast
    rw [hps]
  · intro now H p hist hpe
    unfold Ensemble.generate_ensemble_forecast
    rw [hpe]
    rcases p.planned_start with _ | ps <;> rfl
  · intro now s p hp
    exact List.mem_map.mpr ⟨p, hp, rfl⟩

/-- C7 witness: the missing-start conjunct at a concrete project. -/
theorem c7_null_result_and_batch_totality_witness :
    Ensemble.generate_ensemble_forecast 0 3
      { planned_start := none, planned_end := some 100, spi := none,
        cpi := none, budget := 0, actual_cost := none, completion_pct := none }
      none = Ensemble.initResults :=
  c7_null_result_and_batch_totality.1 0 3 _ none rfl

/-- C8, counterexample.  A session whose data is not loaded returns `{}`
without touching the cache, even when a non-empty cached dictionary with a
perfectly fresh timestamp exists — so "cached set exists and is less than
3600 seconds old" does not imply "the cached dictionary is returned". -/
theorem c8_counterexample_unloaded_session :
    (App.generate_project_forecasts 0
      { data_loaded := false, projects := [],
        project_forecasts := some [(1, App.initFcResult)],
        forecast_generated_at := some 0 }).1 = [] ∧
    (App.generate_project_forecasts 0
      { data_loaded := false, projects := [],
        project_forecasts := some [(1, App.initFcResult)],
        forecast_generated_at := some 0 }).1 ≠ [(1, App.initFcResult)] ∧
    ((0 : ℚ) - 0 < 3600) ∧
    (App.generate_project_forecasts 0
      { data_loaded := false, projects := [],
        project_forecasts := some [(1, App.initFcResult)],
        forecast_generated_at := some 0 }).2 =
      { data_loaded := false, projects := [],
        project_forecasts := some [(1, App.initFcResult)],
        forecast_generated_at := some 0 } := by
  refine ⟨?_, ?_, by norm_num, ?_⟩
  · simp [App.generate_project_forecasts]
  · simp [App.generate_project_forecasts]
  · simp [App.generate_project_forecasts]

/-- C8 (amended): provided the session data is loaded, the function returns
the cached dictionary unchanged iff a cached dictionary exists, is non-empty
(Python truthiness) and its generation timestamp is less than 3600 seconds
before `now`; in every other case — cache missing, empty, or an hour or more
old — it recomputes every project's forecast and stores it with a fresh
timestamp, so a stale forecast is never served.  (With data not loaded the
function returns `{}` without consulting the cache at all.) -/
theorem c8_cache_validity_window (now : ℚ) (s : App.Session)
    (hd : s.data_loaded = true) :
    (∀ fs t, s.project_forecasts = some fs → s.forecast_generated_at = some t →
      ((fs ≠ [] ∧ now - t < 3600) →
        App.generate_project_forecasts now s = (fs, s)) ∧
      (¬ (fs ≠ [] ∧ now - t < 3600) →
        App.generate_project_forecasts now s =
          (App.computeForecasts now s,
            { s with project_forecasts := some (App.computeForecasts now s),
                     forecast_generated_at := some now }))) ∧
    ((s.project_forecasts = none ∨ s.forecast_generated_at = none) →
      App.generate_project_forecasts now s =
        (App.computeForecasts now s,
          { s with project_forecasts := some (App.computeForecasts now s),
                   forecast_generated_at := some now })) := by
  constructor
  · intro fs t hfs ht
    have hred : App.generate_project_forecasts now s =
        if fs ≠ [] ∧ now - t < 3600 then (fs, s)
        else (App.computeForecasts now s,
          { s with project_forecasts := some (App.computeForecasts now s),
                   forecast_generated_at := some now }) := by
      unfold App.generate_project_forecasts
      rw [if_neg (by simp [hd]), hfs, ht]
    constructor
    · intro hcond
      rw [hred, if_pos hcond]
    · intro hcond
      rw [hred, if_neg hcond]
  · intro hcase
    unfold App.generate_project_forecasts
    rw [if_neg (by simp [hd])]
    rcases hcase with hnone | hnone
    · rw [hnone]
    · rw [hnone]
      rcases hfsv : s.project_forecasts with _ | fs <;> rfl

/-! Facts about insertion-based sorting routines satisfying the
`sort_values` contract of the attention filter: both a stable and an
anti-stable descending insertion sort meet everything the unstable
quicksort call guarantees. -/

lemma mem_insertBy (f : DataProcessor.AttnRow → DataProcessor.AttnRow → Bool)
    (x a : DataProcessor.AttnRow) (l : List DataProcessor.AttnRow) :
    a ∈ DataProcessor.insertBy f x l ↔ a = x ∨ a ∈ l := by
  induction l with
  | nil => simp [DataProcessor.insertBy]
  | cons y ys ih =>
      unfold DataProcessor.insertBy
      by_cases hf : f x y = true
      · rw [if_pos hf]
        simp only [List.mem_cons, ih]
      · rw [if_neg hf]
        simp only [List.mem_cons, ih]
        tauto

lemma insertBy_perm (f : DataProcessor.AttnRow → DataProcessor.AttnRow → Bool)
    (x : DataProcessor.AttnRow) (l : List DataProcessor.AttnRow) :
    List.Perm (DataProcessor.insertBy f x l) (x :: l) := by
  induction l with
  | nil => simp [DataProcessor.insertBy]
  | cons y ys ih =>
      unfold DataProcessor.insertBy
      by_cases hf : f x y = true
      · rw [if_pos hf]
      · rw [if_neg hf]
        exact ((ih.cons y).trans (List.Perm.swap x y ys))

lemma insertBy_pairwise_le
    (f : DataProcessor.AttnRow → DataProcessor.AttnRow → Bool)
    (hf : ∀ a b, (f a b = true → b.risk_score ≤ a.risk_score) ∧
      (f a b = false → a.risk_score ≤ b.risk_score))
    (x : DataProcessor.AttnRow) (l : List DataProcessor.AttnRow)
    (hl : l.Pairwise (fun a b => b.risk_score ≤ a.risk_score)) :
    (DataProcessor.insertBy f x l).Pairwise
      (fun a b => b.risk_score ≤ a.risk_score) := by
  induction l with
  | nil => simp [DataProcessor.insertBy]
  | cons y ys ih =>
      rw [List.pairwise_cons] at hl
      unfold DataProcessor.insertBy
      by_cases hxy : f x y = true
      · rw [if_pos hxy]
        rw [List.pairwise_cons]
        refine ⟨?_, List.pairwise_cons.mpr hl⟩
        intro z hz
        rcases List.mem_cons.mp hz with rfl | hz'
        · exact (hf x z).1 hxy
        · exact le_trans (hl.1 z hz') ((hf x y).1 hxy)
      · rw [if_neg hxy]
        rw [List.pairwise_cons]
        refine ⟨?_, ih hl.2⟩
        intro z hz
        rcases (mem_insertBy f x z ys).mp hz with rfl | hz'
        · exact (hf z y).2 (Bool.eq_false_iff.mpr hxy)
        · exact hl.1 z hz'

lemma foldl_insertBy_pairwise
    (f : DataProcessor.AttnRow → DataProcessor.AttnRow → Bool)
    (hf : ∀ a b, (f a b = true → b.risk_score ≤ a.risk_score) ∧
      (f a b = false → a.risk_score ≤ b.risk_score)) :
    ∀ (l acc : List DataProcessor.AttnRow),
      acc.Pairwise (fun a b => b.risk_score ≤ a.risk_score) →
      (l.foldl (fun acc x => DataProcessor.insertBy f x acc) acc).Pairwise
        (fun a b => b.risk_score ≤ a.risk_score) := by
  intro l
  induction l with
  | nil => intro acc hacc; simpa using hacc
  | cons x xs ih =>
      intro acc hacc
      simp only [List.foldl_cons]
      exact ih _ (insertBy_pairwise_le f hf x acc hacc)

lemma foldl_insertBy_perm
    (f : DataProcessor.AttnRow → DataProcessor.AttnRow → Bool) :
    ∀ (l acc : List DataProcessor.AttnRow),
      List.Perm (l.foldl (fun acc x => DataProcessor.insertBy f x acc) acc)
        (acc ++ l) := by
  intro l
  induction l with
  | nil => intro acc; simp
  | cons x xs ih =>
      intro acc
      simp only [List.foldl_cons]
      refine (ih (DataProcessor.insertBy f x acc)).trans ?_
      refine List.Perm.trans ((insertBy_perm f x acc).append_right xs) ?_
      exact List.perm_middle.symm

lemma sortBy_scoreDescSorted
    (f : DataProcessor.AttnRow → DataProcessor.AttnRow → Bool)
    (hf : ∀ a b, (f a b = true → b.risk_score ≤ a.risk_score) ∧
      (f a b = false → a.risk_score ≤ b.risk_score)) :
    DataProcessor.scoreDescSorted (DataProcessor.sortBy f) := by
  intro l
  constructor
  · simpa [DataProcessor.sortBy] using foldl_insertBy_perm f l []
  · exact foldl_insertBy_pairwise f hf l [] (by simp)

/-- The tie-reversing descending insertion sort meets the full contract of
the unstable `sort_values` call. -/
lemma sortTiesReversed_sorted :
    DataProcessor.scoreDescSorted DataProcessor.sortTiesReversed := by
  apply sortBy_scoreDescSorted
  intro a b
  constructor
  · intro h1
    exact of_decide_eq_true h1
  · intro h0
    exact le_of_lt (not_le.mp (of_decide_eq_false h0))

/-- The stable descending insertion sort meets the same contract. -/
lemma sortTiesInOrder_sorted :
    DataProcessor.scoreDescSorted DataProcessor.sortTiesInOrder := by
  apply sortBy_scoreDescSorted
  intro a b
  constructor
  · intro h1
    exact le_of_lt (of_decide_eq_true h1)
  · intro h0
    exact not_lt.mp (of_decide_eq_false h0)

/-- Two projects that both qualify with the *same* risk score 0.1:
project 1 via SPI 0.8 < 0.9, project 2 via CPI 0.8 < 0.9. -/
def c4Projects : List DataProcessor.AttnProject :=
  [⟨1, "On Track"⟩, ⟨2, "On Track"⟩]

def c4History : List DataProcessor.AttnHistRow :=
  [⟨1, 0, some (0.8 : ℚ), some 1⟩, ⟨2, 0, some 1, some (0.8 : ℚ)⟩]

/-- C4, counterexample.  Both qualifying rows carry the same risk score 0.1;
`sort_values('risk_score', ascending=False)` with the default unstable
`kind='quicksort'` guarantees only a score-descending permutation, and
`sortTiesReversed` satisfies that entire contract yet returns the tied rows
in reversed input order — so "ties broken by input order (stable sort)" is
not a property of the program. -/
theorem c4_counterexample_unstable_ties :
    ((DataProcessor.attentionRows (0.9 : ℚ) (0.9 : ℚ) c4Projects
        c4History).map DataProcessor.AttnRow.idx = [0, 1]) ∧
    ((DataProcessor.attentionRows (0.9 : ℚ) (0.9 : ℚ) c4Projects
        c4History).map DataProcessor.AttnRow.risk_score =
      [(0.1 : ℚ), (0.1 : ℚ)]) ∧
    DataProcessor.scoreDescSorted DataProcessor.sortTiesReversed ∧
    ((DataProcessor.get_projects_needing_attention
        DataProcessor.sortTiesReversed c4Projects c4History (0.9 : ℚ)
        (0.9 : ℚ)).map DataProcessor.AttnRow.idx = [1, 0]) := by
  have hspi1 : DataProcessor.mergedSpi c4History 1 = (0.8 : ℚ) := rfl
  have hcpi1 : DataProcessor.mergedCpi c4History 1 = 1 := rfl
  have hspi2 : DataProcessor.mergedSpi c4History 2 = 1 := rfl
  have hcpi2 : DataProcessor.mergedCpi c4History 2 = (0.8 : ℚ) := rfl
  have hq1 : DataProcessor.qualifies (0.9 : ℚ) (0.9 : ℚ) (0.8 : ℚ) 1
      "On Track" = true := by
    unfold DataProcessor.qualifies
    norm_num
  have hq2 : DataProcessor.qualifies (0.9 : ℚ) (0.9 : ℚ) 1 (0.8 : ℚ)
      "On Track" = true := by
    unfold DataProcessor.qualifies
    norm_num
  have hrows : DataProcessor.attentionRows (0.9 : ℚ) (0.9 : ℚ) c4Projects
      c4History =
      [⟨0, 1, "On Track", (0.8 : ℚ), 1,
        (1 - (0.8 : ℚ)) * (0.5 : ℚ) + (1 - 1) * (0.5 : ℚ)⟩,
       ⟨1, 2, "On Track", 1, (0.8 : ℚ),
        (1 - (1 : ℚ)) * (0.5 : ℚ) + (1 - (0.8 : ℚ)) * (0.5 : ℚ)⟩] := by
    unfold DataProcessor.attentionRows c4Projects
    rw [show List.enum [(⟨1, "On Track"⟩ : DataProcessor.AttnProject),
        ⟨2, "On Track"⟩] = [(0, ⟨1, "On Track"⟩), (1, ⟨2, "On Track"⟩)] from
      rfl]
    simp only [List.filterMap_cons, List.filterMap_nil, hspi1, hcpi1, hspi2,
      hcpi2, hq1, hq2, if_true]
  refine ⟨?_, ?_, sortTiesReversed_sorted, ?_⟩
  · rw [hrows]
    rfl
  · rw [hrows]
    simp only [List.map_cons, List.map_nil]
    norm_num
  · show (DataProcessor.sortTiesReversed
      (DataProcessor.attentionRows (0.9 : ℚ) (0.9 : ℚ) c4Projects
        c4History)).map DataProcessor.AttnRow.idx = [1, 0]
    rw [hrows]
    unfold DataProcessor.sortTiesReversed DataProcessor.sortBy
    simp only [List.foldl_cons, List.foldl_nil]
    norm_num [DataProcessor.insertBy]

/-- C4 (amended): for every sorting routine meeting the full contract of the
unstable `sort_values` call, the attention filter returns exactly the
projects with `spi < spi_threshold` or `cpi < cpi_threshold` or a status in
{At Risk, Delayed} — SPI/CPI taken from the latest history row and defaulted
to 1.0 when missing — each carrying
`risk_score = (1-spi)*0.5 + (1-cpi)*0.5`, arranged by non-increasing risk
score.  The relative order of equal-score rows is not specified. -/
theorem c4_attention_filter_sorted
    (sorter : List DataProcessor.AttnRow → List DataProcessor.AttnRow)
    (hs : DataProcessor.scoreDescSorted sorter)
    (projects : List DataProcessor.AttnProject)
    (h : List DataProcessor.AttnHistRow) (spiT cpiT : ℚ) :
    (∀ e, e ∈ DataProcessor.get_projects_needing_attention sorter projects h
        spiT cpiT ↔
      ∃ ip ∈ projects.enum,
        DataProcessor.qualifies spiT cpiT
          (DataProcessor.mergedSpi h ip.2.project_id)
          (DataProcessor.mergedCpi h ip.2.project_id) ip.2.status = true ∧
        e = ⟨ip.1, ip.2.project_id, ip.2.status,
          DataProcessor.mergedSpi h ip.2.project_id,
          DataProcessor.mergedCpi h ip.2.project_id,
          (1 - DataProcessor.mergedSpi h ip.2.project_id) * (0.5 : ℚ) +
            (1 - DataProcessor.mergedCpi h ip.2.project_id) * (0.5 : ℚ)⟩) ∧
    (DataProcessor.get_projects_needing_attention sorter projects h spiT
      cpiT).Pairwise (fun a b => b.risk_score ≤ a.risk_score) := by
  obtain ⟨hperm, hsorted⟩ :=
    hs (DataProcessor.attentionRows spiT cpiT projects h)
  refine ⟨?_, hsorted⟩
  intro e
  rw [show DataProcessor.get_projects_needing_attention sorter projects h
      spiT cpiT =
    sorter (DataProcessor.attentionRows spiT cpiT projects h) from rfl]
  rw [hperm.mem_iff]
  unfold DataProcessor.attentionRows
  rw [List.mem_filterMap]
  constructor
  · rintro ⟨ip, hip, hf⟩
    by_cases hq : DataProcessor.qualifies spiT cpiT
        (DataProcessor.mergedSpi h ip.2.project_id)
        (DataProcessor.mergedCpi h ip.2.project_id) ip.2.status
    · simp only [hq, if_true, Option.some_inj] at hf
      exact ⟨ip, hip, hq, hf.symm⟩
    · simp [hq] at hf
  · rintro ⟨ip, hip, hq, rfl⟩
    exact ⟨ip, hip, by simp [hq]⟩

/-- C4 witness: the amended theorem applied with a concrete
contract-satisfying sorting routine at the spec's worked example
(SPI 0.70/0.95/1.05, CPI 1.00/0.80/1.00, thresholds 0.9): project 1 appears
in the attention list with risk score 0.15. -/
theorem c4_attention_filter_sorted_witness :
    (⟨0, 1, "On Track", (0.7 : ℚ), 1, (0.15 : ℚ)⟩ :
        DataProcessor.AttnRow) ∈
      DataProcessor.get_projects_needing_attention
        DataProcessor.sortTiesInOrder
        [⟨1, "On Track"⟩, ⟨2, "On Track"⟩, ⟨3, "On Track"⟩]
        [⟨1, 0, some (0.7 : ℚ), some 1⟩, ⟨2, 0, some (0.95 : ℚ), some (0.8 : ℚ)⟩,
          ⟨3, 0, some (1.05 : ℚ), some 1⟩] (0.9 : ℚ) (0.9 : ℚ) := by
  have hchar := (c4_attention_filter_sorted DataProcessor.sortTiesInOrder
    sortTiesInOrder_sorted
    [⟨1, "On Track"⟩, ⟨2, "On Track"⟩, ⟨3, "On Track"⟩]
    [⟨1, 0, some (0.7 : ℚ), some 1⟩, ⟨2, 0, some (0.95 : ℚ), some (0.8 : ℚ)⟩,
      ⟨3, 0, some (1.05 : ℚ), some 1⟩] (0.9 : ℚ) (0.9 : ℚ)).1
  have hspi : DataProcessor.mergedSpi
      [⟨1, 0, some (0.7 : ℚ), some 1⟩, ⟨2, 0, some (0.95 : ℚ), some (0.8 : ℚ)⟩,
        ⟨3, 0, some (1.05 : ℚ), some 1⟩] 1 = (0.7 : ℚ) := rfl
  have hcpi : DataProcessor.mergedCpi
      [⟨1, 0, some (0.7 : ℚ), some 1⟩, ⟨2, 0, some (0.95 : ℚ), some (0.8 : ℚ)⟩,
        ⟨3, 0, some (1.05 : ℚ), some 1⟩] 1 = 1 := rfl
  rw [hchar]
  refine ⟨(0, ⟨1, "On Track"⟩), by simp [List.enum], ?_, ?_⟩
  · show DataProcessor.qualifies (0.9 : ℚ) (0.9 : ℚ) _ _ _ = true
    rw [hspi, hcpi]
    unfold DataProcessor.qualifies
    norm_num
  · show _ = DataProcessor.AttnRow.mk _ _ _ _ _ _
    rw [hspi, hcpi]
    simp only [DataProcessor.AttnRow.mk.injEq]
    norm_num

/-- C8 witness: the amended theorem at a loaded session holding an exactly
one-hour-old cache: the stale dictionary is not served, the forecasts are
recomputed and restamped. -/
theorem c8_cache_validity_window_witness :
    App.generate_project_forecasts 3600
      { data_loaded := true, projects := [],
        project_forecasts := some [(1, App.initFcResult)],
        forecast_generated_at := some 0 } =
      ([], { data_loaded := true, projects := [],
             project_forecasts := some [],
             forecast_generated_at := some 3600 }) := by
  have h := ((c8_cache_validity_window 3600
    { data_loaded := true, projects := [],
      project_forecasts := some [(1, App.initFcResult)],
      forecast_generated_at := some 0 } rfl).1
    [(1, App.initFcResult)] 0 rfl rfl).2 (by norm_num)
  rw [h]
  simp [App.computeForecasts]

/-- C9: the anomaly-detection entry points never write into the caller's
frame.  The app-level detector builds a fresh result table holding exactly
the columns `is_anomaly` and `anomaly_score`; the two utility detectors
write those two columns onto the `.copy()` of the input, so every other
column of their result reads back exactly as in the input frame. -/
theorem c9_anomaly_detection_preserves_input :
    (∀ (forest : List (List ℚ) → List ℤ × List ℚ)
        (projects_df metrics_df : Frames.Frame) (name : String)
        (c : List (Option ℚ)),
      (name, c) ∈ Frames.app_detect_project_anomalies forest projects_df
        metrics_df →
      name = "is_anomaly" ∨ name = "anomaly_score") ∧
    (∀ (forest : List (List ℚ) → List ℤ) (projects_df : Frames.Frame)
        (metrics : List String) (name : String),
      name ≠ "anomaly_score" → name ≠ "is_anomaly" →
      Frames.colGet
        (Frames.advanced_detect_project_anomalies forest projects_df metrics)
        name = Frames.colGet projects_df name) ∧
    (∀ (forest : List (List ℚ) → List ℤ) (zrow : List (List ℚ) → List ℚ)
        (project_data : Frames.Frame) (method : String) (name : String),
      name ≠ "anomaly_score" → name ≠ "is_anomaly" →
      Frames.colGet
        (Frames.predictive_detect_anomalies forest zrow project_data method)
        name = Frames.colGet project_data name) := by
  refine ⟨?_, ?_, ?_⟩
  · intro forest pdf mdf name c hmem
    simp only [Frames.app_detect_project_anomalies] at hmem
    split at hmem
    · simp at hmem
    · split at hmem
      · rcases List.mem_cons.mp hmem with h | h
        · exact Or.inl (congrArg Prod.fst h)
        · rcases List.mem_cons.mp h with h' | h'
          · exact Or.inr (congrArg Prod.fst h')
          · simp at h'
      · rcases List.mem_cons.mp hmem with h | h
        · exact Or.inl (congrArg Prod.fst h)
        · rcases List.mem_cons.mp h with h' | h'
          · exact Or.inr (congrArg Prod.fst h')
          · simp at h'
  · intro forest pdf metrics name hns hni
    simp only [Frames.advanced_detect_project_anomalies]
    split
    · rfl
    · split
      · rfl
      · rw [Frames.colGet_colSet_ne _ _ _ _ hni,
          Frames.colGet_colSet_ne _ _ _ _ hns]
  · intro forest zrow pdf method name hns hni
    simp only [Frames.predictive_detect_anomalies]
    split
    · rfl
    · split
      · rfl
      · split
        · rw [Frames.colGet_colSet_ne _ _ _ _ hni,
            Frames.colGet_colSet_ne _ _ _ _ hns]
        · split
          · rw [Frames.colGet_colSet_ne _ _ _ _ hni,
              Frames.colGet_colSet_ne _ _ _ _ hns]
          · rfl

/-- C9 witness: the advanced-analytics conjunct at a concrete one-column
frame. -/
theorem c9_anomaly_detection_preserves_input_witness :
    Frames.colGet
      (Frames.advanced_detect_project_anomalies (fun _ => [])
        [("spi", [some 1])] ["spi"]) "spi" =
      Frames.colGet [("spi", [some 1])] "spi" :=
  c9_anomaly_detection_preserves_input.2.1 (fun _ => []) [("spi", [some 1])]
    ["spi"] "spi" (by decide) (by decide)

end PMO
